import Mathlib

/-!
Verification development for the mailhero-basic DNS posture engine.

The engine appears twice in the repository:
* `dnsStatus` in `src/agent/src/tools/adminOperations.js` (the service tool,
  4-factor scoring), modelled below by `MailHero.dnsStatusT`;
* the diagnostic shell script `src/unnamed/part_000` (5-factor scoring),
  modelled below by `MailHero.runScript`.

Resolver lookups are modelled as functions into `Option`: `none` models a
lookup that throws (NXDOMAIN, timeout), `some l` a successful answer list.
-/

namespace MailHero

/-- One MX answer record as returned by `dns.resolveMx`. -/
structure MxRecord where
  exchange : String
  priority : Nat
deriving DecidableEq, Repr

/-- The resolver capability consumed by the service tool.  `resolveTxt`
returns each TXT record as its list of character-string chunks, as the Node
API does.  `resolveA` is part of the capability described by the spec but is
never called by `dnsStatus`. -/
structure Resolver where
  resolveMx : String → Option (List MxRecord)
  resolveA : String → Option (List String)
  resolveTxt : String → Option (List (List String))

/-- A found DKIM record, the object pushed at adminOperations.js lines 59-62. -/
structure DkimEntry where
  selector : String
  txt : String
deriving DecidableEq, Repr

/-- The `results` object assembled by `dnsStatus`, adminOperations.js
lines 16-23 (fields in source order; no score field is returned). -/
structure DnsResults where
  domain : String
  mx : List MxRecord
  spf : Option String
  dkim : List DkimEntry
  dmarc : Option String
  verdict : String
deriving DecidableEq, Repr

/-- `record.join('')`: concatenation of the chunk strings of one TXT record. -/
def joinChunks (r : List String) : String := String.join r

/-- JS truthiness of a nullable string field (`if (results.spf)`). -/
def truthy : Option String → Bool
  | none => false
  | some s => !(s == "")

/-- Does `pat` match at the head of `s`, comparing characters with `m`? -/
def matchAtBy (m : Char → Char → Bool) : List Char → List Char → Bool
  | [], _ => true
  | _ :: _, [] => false
  | p :: ps, c :: cs => m p c && matchAtBy m ps cs

/-- Does `pat` match starting at some position of `s`? -/
def containsBy (m : Char → Char → Bool) (pat : List Char) : List Char → Bool
  | [] => matchAtBy m pat []
  | c :: cs => matchAtBy m pat (c :: cs) || containsBy m pat cs

/-- JS `String.prototype.includes`: literal substring containment. -/
def strContains (s pat : String) : Bool :=
  containsBy (fun p c => p == c) pat.toList s.toList

/-- JS `String.prototype.startsWith`: literal prefix test. -/
def strStartsWith (s pat : String) : Bool :=
  matchAtBy (fun p c => p == c) pat.toList s.toList

/-- One grep line match, for the pattern class the script uses: a dot in the
pattern matches any character (basic regular expression), every other
character is literal. -/
def bregContains (pat line : String) : Bool :=
  containsBy (fun p c => p == '.' || p == c) pat.toList line.toList

/-- Shared shape of the SPF, DKIM and DMARC record searches in `dnsStatus`:
on a successful TXT answer, find the first record whose joined value
satisfies `p` and return that joined value; a thrown lookup gives `none`. -/
def findJoin (p : String → Bool) (ans : Option (List (List String))) : Option String :=
  match ans with
  | none => none
  | some txtRecords => (txtRecords.find? (fun r => p (joinChunks r))).map joinChunks

/-- The fixed candidate selector list of the service tool, line 50. -/
def dkimSelectors : List String := ["s1", "default", "selector1", "selector2"]

/-- One DKIM selector iteration of the loop at lines 51-67: TXT lookup at
the selector name, keep the first record whose joined value contains the
substring `v=DKIM1`. -/
def dkimLookup (res : Resolver) (domain selector : String) : Option DkimEntry :=
  (findJoin (fun s => strContains s "v=DKIM1")
      (res.resolveTxt (selector ++ "._domainkey." ++ domain))).map
    (fun t => ⟨selector, t⟩)

/-- A resolver question issued by the engine. -/
inductive Query where
  | mx (name : String)
  | txt (name : String)
deriving DecidableEq, Repr

/-- `dnsStatus` (adminOperations.js lines 12-101) together with the score it
computes internally (lines 84-88, not a field of the returned object) and
the trace of resolver questions it issues.  The question sequence is
unconditional in the source: every lookup is attempted regardless of earlier
answers, and every resolver failure is absorbed by a catch block. -/
def dnsStatusT (res : Resolver) (domain : String) : DnsResults × Nat × List Query :=
  let mx : List MxRecord := (res.resolveMx domain).getD []
  let spf : Option String :=
    findJoin (fun s => strStartsWith s "v=spf1") (res.resolveTxt domain)
  let dkim : List DkimEntry :=
    dkimSelectors.filterMap (fun selector => dkimLookup res domain selector)
  let dmarc : Option String :=
    findJoin (fun s => strStartsWith s "v=DMARC1") (res.resolveTxt ("_dmarc." ++ domain))
  let score : Nat :=
    (if 0 < mx.length then 25 else 0) + (if truthy spf then 25 else 0) +
      (if 0 < dkim.length then 25 else 0) + (if truthy dmarc then 25 else 0)
  let verdict : String :=
    if 100 ≤ score then "pass" else if 75 ≤ score then "warn" else "fail"
  (⟨domain, mx, spf, dkim, dmarc, verdict⟩, score,
    [Query.mx domain, Query.txt domain] ++
      dkimSelectors.map (fun selector => Query.txt (selector ++ "._domainkey." ++ domain)) ++
      [Query.txt ("_dmarc." ++ domain)])

/-- The report returned by the service tool. -/
def dnsStatus (res : Resolver) (domain : String) : DnsResults :=
  (dnsStatusT res domain).1

/-- The score computed internally by the service tool. -/
def dnsScore (res : Resolver) (domain : String) : Nat :=
  (dnsStatusT res domain).2.1

/-- The sequence of resolver questions issued by the service tool. -/
def dnsQueries (res : Resolver) (domain : String) : List Query :=
  (dnsStatusT res domain).2.2

/-- MX factor of the rubric, line 85 of the source. -/
def mxPresent (o : DnsResults) : Bool := decide (0 < o.mx.length)

/-- SPF factor of the rubric, line 86 of the source. -/
def spfPresent (o : DnsResults) : Bool := truthy o.spf

/-- DKIM factor of the rubric, line 87 of the source. -/
def dkimPresent (o : DnsResults) : Bool := decide (0 < o.dkim.length)

/-- DMARC factor of the rubric, line 88 of the source. -/
def dmarcPresent (o : DnsResults) : Bool := truthy o.dmarc

/-- The scoring rubric of lines 84-88 read off an assembled report. -/
def scoreOfResults (o : DnsResults) : Nat :=
  (if 0 < o.mx.length then 25 else 0) + (if truthy o.spf then 25 else 0) +
    (if 0 < o.dkim.length then 25 else 0) + (if truthy o.dmarc then 25 else 0)

/-! ### Model of the diagnostic script, src/unnamed/part_000 -/

/-- The dig answers consumed by the script: output lines of
`dig +short` for each record type, keyed by the queried name. -/
structure Dig where
  digMx : String → List String
  digA : String → List String
  digTxt : String → List String

/-- The candidate selector list of the script, line 78. -/
def scriptDkimSelectors : List String := ["s1", "default", "selector1", "mail"]

/-- The mechanism substrings of the SPF validity grep, line 65. -/
def spfMechanisms : List String := ["include:", "a:", "mx", "ip4:", "ip6:"]

/-- The SPF validity heuristic of line 65 applied to one value line. -/
def spfPlausible (v : String) : Bool := spfMechanisms.any (fun p => bregContains p v)

/-- The observations and summary the script computes. -/
structure ScriptReport where
  mxPresent : Bool
  mxMatches : Bool
  aPresent : Bool
  spfPresent : Bool
  spfValid : Bool
  dkimFound : Bool
  dmarcPresent : Bool
  score : Nat
  verdict : String
deriving DecidableEq, Repr

/-- Indicator of a boolean flag, as the shell arithmetic counts it. -/
def b2n (b : Bool) : Nat := if b then 1 else 0

/-- The diagnostic script, src/unnamed/part_000, as a function of the dig
answers.  Nonemptiness of a captured variable models `[ -n "$VAR" ]`; the
three summary branches of lines 154-160 are rendered as the verdicts
pass, warn and fail. -/
def runScript (dig : Dig) (domain mailServer : String) : ScriptReport :=
  let mxLines := dig.digMx domain
  let mxP := !mxLines.isEmpty
  let mxMatches := mxLines.any (fun l => bregContains mailServer l)
  let aLines := dig.digA mailServer
  let aP := !aLines.isEmpty
  let spfLines := (dig.digTxt domain).filter (fun l => bregContains "v=spf1" l)
  let spfP := !spfLines.isEmpty
  let spfValid := spfLines.any spfPlausible
  let dkimFound := scriptDkimSelectors.any (fun sel =>
    !((dig.digTxt (sel ++ "._domainkey." ++ domain)).filter
        (fun l => bregContains "v=DKIM1" l)).isEmpty)
  let dmarcLines :=
    (dig.digTxt ("_dmarc." ++ domain)).filter (fun l => bregContains "v=DMARC1" l)
  let dmarcP := !dmarcLines.isEmpty
  let score := b2n mxP + b2n aP + b2n spfP + b2n dkimFound + b2n dmarcP
  let verdict := if score = 5 then "pass" else if 3 ≤ score then "warn" else "fail"
  ⟨mxP, mxMatches, aP, spfP, spfValid, dkimFound, dmarcP, score, verdict⟩

/-! ### Definitions following the words of the spec, for comparison -/

/-- ASCII lower-casing of one character. -/
def asciiLower (c : Char) : Char :=
  if 'A' ≤ c ∧ c ≤ 'Z' then Char.ofNat (c.toNat + 32) else c

/-- Trailing-dot normalization of a DNS name, as the spec words it. -/
def stripTrailingDot (s : String) : List Char :=
  if s.toList.getLast? = some '.' then s.toList.dropLast else s.toList

/-- The MX expectation criterion as the spec states it: some exchange,
compared case-insensitively after trailing-dot normalization, equals the
expected mail hostname. -/
def specMxMatch (exchanges : List String) (mailHostname : String) : Bool :=
  exchanges.any (fun e =>
    (stripTrailingDot e).map asciiLower == mailHostname.toList.map asciiLower)

/-- The scoring formula claim C1 states: 25 times the number of true flags
among MX present, A present, SPF present, DKIM present. -/
def fourFactorScore (mxP aP spfP dkimP : Bool) : Nat :=
  25 * (b2n mxP + b2n aP + b2n spfP + b2n dkimP)

/-! ### Concrete inputs used by witnesses and counterexamples -/

/-- A resolver on which every lookup throws. -/
def emptyRes : Resolver :=
  { resolveMx := fun _ => none
    resolveA := fun _ => none
    resolveTxt := fun _ => none }

/-- A resolver with a DMARC record for example.com and nothing else; in
particular it holds no A record for any name. -/
def noARes : Resolver :=
  { resolveMx := fun _ => none
    resolveA := fun _ => none
    resolveTxt := fun n =>
      if n = "_dmarc.example.com" then some [["v=DMARC1; p=reject"]] else none }

/-- A resolver whose only record is a TXT of value `v=spf1 foo`. -/
def spfFooRes : Resolver :=
  { resolveMx := fun _ => none
    resolveA := fun _ => none
    resolveTxt := fun n =>
      if n = "example.com" then some [["v=spf1 foo"]] else none }

/-- A resolver whose only record is a TXT of value `v=spf1 mx -all`. -/
def spfMxRes : Resolver :=
  { resolveMx := fun _ => none
    resolveA := fun _ => none
    resolveTxt := fun n =>
      if n = "example.com" then some [["v=spf1 mx -all"]] else none }

/-- Dig answers whose MX output line carries an upper-case exchange. -/
def cexDig : Dig :=
  { digMx := fun _ => ["10 MAIL.EXAMPLE.COM."]
    digA := fun _ => []
    digTxt := fun _ => [] }

/-! ### Helper lemmas about the matching combinators -/

/-- `matchAtBy` succeeds exactly when a head segment of `s` matches `pat`
character by character. -/
theorem matchAtBy_iff (m : Char → Char → Bool) (pat s : List Char) :
    matchAtBy m pat s = true ↔
      ∃ mid post, s = mid ++ post ∧
        List.Forall₂ (fun p c => m p c = true) pat mid := by
  induction pat generalizing s with
  | nil =>
    constructor
    · intro _; exact ⟨[], s, rfl, List.Forall₂.nil⟩
    · intro _; rfl
  | cons p ps ih =>
    cases s with
    | nil =>
      constructor
      · intro h; simp [matchAtBy] at h
      · rintro ⟨mid, post, heq, hf⟩
        cases hf with
        | cons hm hf2 => simp at heq
    | cons c cs =>
      simp only [matchAtBy, Bool.and_eq_true, ih]
      constructor
      · rintro ⟨hm, mid, post, rfl, hf⟩
        exact ⟨c :: mid, post, rfl, List.Forall₂.cons hm hf⟩
      · rintro ⟨mid, post, heq, hf⟩
        cases hf with
        | cons hm hf2 =>
          rw [List.cons_append] at heq
          injection heq with h1 h2
          subst h1
          exact ⟨hm, _, post, h2, hf2⟩

/-- `containsBy` succeeds exactly when some segment of `s` matches `pat`. -/
theorem containsBy_iff (m : Char → Char → Bool) (pat s : List Char) :
    containsBy m pat s = true ↔
      ∃ pre mid post, s = pre ++ mid ++ post ∧
        List.Forall₂ (fun p c => m p c = true) pat mid := by
  induction s with
  | nil =>
    rw [containsBy, matchAtBy_iff]
    constructor
    · rintro ⟨mid, post, heq, hf⟩
      exact ⟨[], mid, post, by simpa using heq, hf⟩
    · rintro ⟨pre, mid, post, heq, hf⟩
      have h := heq.symm
      rw [List.append_assoc] at h
      rcases List.append_eq_nil.mp h with ⟨h1, h2⟩
      exact ⟨mid, post, h2.symm, hf⟩
  | cons c cs ih =>
    rw [containsBy, Bool.or_eq_true, matchAtBy_iff, ih]
    constructor
    · rintro (⟨mid, post, heq, hf⟩ | ⟨pre, mid, post, heq, hf⟩)
      · exact ⟨[], mid, post, by simpa using heq, hf⟩
      · exact ⟨c :: pre, mid, post, by simp [heq], hf⟩
    · rintro ⟨pre, mid, post, heq, hf⟩
      cases pre with
      | nil => exact Or.inl ⟨mid, post, by simpa using heq, hf⟩
      | cons b pre2 =>
        rw [List.cons_append, List.cons_append] at heq
        injection heq with h1 h2
        exact Or.inr ⟨pre2, mid, post, h2, hf⟩

/-- First-match characterization of `List.find?`. -/
theorem find?_first_iff (p : α → Bool) :
    ∀ (l : List α) (a : α),
      l.find? p = some a ↔
        ∃ l1 l2, l = l1 ++ a :: l2 ∧ p a = true ∧ ∀ x ∈ l1, p x = false := by
  intro l
  induction l with
  | nil => intro a; simp
  | cons b t ih =>
    intro a
    cases hb : p b with
    | true =>
      rw [List.find?_cons_of_pos _ hb]
      constructor
      · intro h
        injection h with h
        subst h
        exact ⟨[], t, rfl, hb, by simp⟩
      · rintro ⟨l1, l2, heq, hpa, hfst⟩
        cases l1 with
        | nil =>
          simp only [List.nil_append] at heq
          injection heq with h1 h2
          rw [h1]
        | cons x l12 =>
          rw [List.cons_append] at heq
          injection heq with h1 h2
          subst h1
          have hx := hfst b (by simp)
          rw [hb] at hx
          cases hx
    | false =>
      rw [List.find?_cons_of_neg _ (by simp [hb]), ih]
      constructor
      · rintro ⟨l1, l2, heq, hpa, hfst⟩
        refine ⟨b :: l1, l2, by rw [heq, List.cons_append], hpa, ?_⟩
        intro x hx
        rcases List.mem_cons.mp hx with h | h
        · subst h; exact hb
        · exact hfst x h
      · rintro ⟨l1, l2, heq, hpa, hfst⟩
        cases l1 with
        | nil =>
          simp only [List.nil_append] at heq
          injection heq with h1 h2
          subst h1
          rw [hb] at hpa
          cases hpa
        | cons x l12 =>
          rw [List.cons_append] at heq
          injection heq with h1 h2
          exact ⟨l12, l2, h2, hpa, fun y hy => hfst y (by simp [hy])⟩

/-! ### Helper lemmas about `findJoin` and `dkimLookup` -/

/-- Full characterization of a successful `findJoin`: the answer list splits
at the first record whose joined value satisfies the predicate. -/
theorem findJoin_eq_some_iff (p : String → Bool)
    (o : Option (List (List String))) (v : String) :
    findJoin p o = some v ↔
      ∃ l l1 r l2, o = some l ∧ l = l1 ++ r :: l2 ∧ p (joinChunks r) = true ∧
        (∀ rp ∈ l1, p (joinChunks rp) = false) ∧ v = joinChunks r := by
  cases o with
  | none => simp [findJoin]
  | some l =>
    simp only [findJoin, Option.map_eq_some', find?_first_iff, Option.some.injEq]
    constructor
    · rintro ⟨r, ⟨l1, l2, heq, hp, hfst⟩, hv⟩
      exact ⟨l, l1, r, l2, rfl, heq, hp, hfst, hv.symm⟩
    · rintro ⟨l2, l1, r, l3, hl, heq, hp, hfst, hv⟩
      subst hl
      exact ⟨r, ⟨l1, l3, heq, hp, hfst⟩, hv.symm⟩

/-- `findJoin` yields something exactly when the lookup succeeded and some
record satisfies the predicate. -/
theorem findJoin_isSome_iff (p : String → Bool) (o : Option (List (List String))) :
    (findJoin p o).isSome = true ↔
      ∃ l, o = some l ∧ ∃ r ∈ l, p (joinChunks r) = true := by
  cases o with
  | none => simp [findJoin]
  | some l => simp [findJoin, List.find?_isSome]

/-- A value returned by `findJoin` satisfies the predicate. -/
theorem findJoin_sat {p : String → Bool} {o : Option (List (List String))}
    {v : String} (h : findJoin p o = some v) : p v = true := by
  cases o with
  | none => simp [findJoin] at h
  | some l =>
    simp only [findJoin, Option.map_eq_some'] at h
    obtain ⟨r, hr, hv⟩ := h
    have hp := List.find?_some hr
    rwa [hv] at hp

/-- A thrown or empty TXT answer makes `findJoin` come up empty. -/
theorem findJoin_absent (p : String → Bool) {o : Option (List (List String))}
    (h : o = none ∨ o = some []) : findJoin p o = none := by
  rcases h with h | h <;> subst h <;> simp [findJoin]

/-- Successful `dkimLookup`, unfolded. -/
theorem dkimLookup_eq_some_iff (res : Resolver) (domain selector : String)
    (e : DkimEntry) :
    dkimLookup res domain selector = some e ↔
      ∃ t, findJoin (fun s => strContains s "v=DKIM1")
          (res.resolveTxt (selector ++ "._domainkey." ++ domain)) = some t ∧
        e = ⟨selector, t⟩ := by
  simp only [dkimLookup, Option.map_eq_some']
  constructor
  · rintro ⟨t, ht, hv⟩; exact ⟨t, ht, hv.symm⟩
  · rintro ⟨t, ht, hv⟩; exact ⟨t, ht, hv.symm⟩

/-- The selector recorded in a DKIM entry is the probed selector. -/
theorem dkimLookup_selector {res : Resolver} {domain selector : String}
    {e : DkimEntry} (h : dkimLookup res domain selector = some e) :
    e.selector = selector := by
  obtain ⟨t, ht, hv⟩ := (dkimLookup_eq_some_iff res domain selector e).mp h
  rw [hv]

/-- The txt recorded in a DKIM entry contains the DKIM marker. -/
theorem dkimLookup_txt {res : Resolver} {domain selector : String}
    {e : DkimEntry} (h : dkimLookup res domain selector = some e) :
    strContains e.txt "v=DKIM1" = true := by
  obtain ⟨t, ht, hv⟩ := (dkimLookup_eq_some_iff res domain selector e).mp h
  have hp := findJoin_sat ht
  rw [hv]
  exact hp

/-- `dkimLookup` yields something exactly when the TXT lookup at the probed
selector name succeeded with a record containing the DKIM marker. -/
theorem dkimLookup_isSome_iff (res : Resolver) (domain selector : String) :
    (dkimLookup res domain selector).isSome = true ↔
      ∃ l, res.resolveTxt (selector ++ "._domainkey." ++ domain) = some l ∧
        ∃ r ∈ l, strContains (joinChunks r) "v=DKIM1" = true := by
  rw [dkimLookup, Option.isSome_map']
  exact findJoin_isSome_iff _ _

/-! ### Unfolding lemmas for the report fields -/

theorem dnsStatus_domain (res : Resolver) (d : String) :
    (dnsStatus res d).domain = d := rfl

theorem dnsStatus_mx (res : Resolver) (d : String) :
    (dnsStatus res d).mx = (res.resolveMx d).getD [] := rfl

theorem dnsStatus_spf (res : Resolver) (d : String) :
    (dnsStatus res d).spf =
      findJoin (fun s => strStartsWith s "v=spf1") (res.resolveTxt d) := rfl

theorem dnsStatus_dkim (res : Resolver) (d : String) :
    (dnsStatus res d).dkim =
      dkimSelectors.filterMap (fun selector => dkimLookup res d selector) := rfl

theorem dnsStatus_dmarc (res : Resolver) (d : String) :
    (dnsStatus res d).dmarc =
      findJoin (fun s => strStartsWith s "v=DMARC1")
        (res.resolveTxt ("_dmarc." ++ d)) := rfl

/-- The score used for the verdict is the rubric read off the report. -/
theorem dnsScore_eq (res : Resolver) (d : String) :
    dnsScore res d = scoreOfResults (dnsStatus res d) := rfl

/-- The verdict is the threshold function of the score. -/
theorem dnsStatus_verdict (res : Resolver) (d : String) :
    (dnsStatus res d).verdict =
      (if 100 ≤ dnsScore res d then "pass"
       else if 75 ≤ dnsScore res d then "warn" else "fail") := rfl

/-- The rubric only takes the values 0, 25, 50, 75, 100. -/
theorem scoreOfResults_mem (o : DnsResults) :
    scoreOfResults o ∈ ([0, 25, 50, 75, 100] : List Nat) := by
  unfold scoreOfResults
  by_cases h1 : 0 < o.mx.length <;> by_cases h2 : truthy o.spf = true <;>
    by_cases h3 : 0 < o.dkim.length <;> by_cases h4 : truthy o.dmarc = true <;>
    simp [h1, h2, h3, h4]

/-- The rubric is 25 times the number of present factors. -/
theorem scoreOfResults_formula (o : DnsResults) :
    scoreOfResults o =
      25 * (b2n (mxPresent o) + b2n (spfPresent o) +
        b2n (dkimPresent o) + b2n (dmarcPresent o)) := by
  unfold scoreOfResults mxPresent spfPresent dkimPresent dmarcPresent b2n
  by_cases h1 : 0 < o.mx.length <;> by_cases h2 : truthy o.spf = true <;>
    by_cases h3 : 0 < o.dkim.length <;> by_cases h4 : truthy o.dmarc = true <;>
    simp [h1, h2, h3, h4]

theorem dnsScore_mem (res : Resolver) (d : String) :
    dnsScore res d ∈ ([0, 25, 50, 75, 100] : List Nat) := by
  rw [dnsScore_eq]
  exact scoreOfResults_mem _

/-! ### List helper lemmas -/

/-- Mapping a right inverse of `f` over `l.filterMap f` gives back a
sublist of `l`. -/
theorem filterMap_map_sublist {α β : Type} (f : α → Option β) (g : β → α)
    (hfg : ∀ a b, f a = some b → g b = a) :
    ∀ l : List α, ((l.filterMap f).map g).Sublist l := by
  intro l
  induction l with
  | nil => simp
  | cons a t ih =>
    cases h : f a with
    | none =>
      rw [List.filterMap_cons_none h]
      exact ih.cons a
    | some b =>
      rw [List.filterMap_cons_some h, List.map_cons, hfg a b h]
      exact ih.cons₂ a

theorem ne_nil_iff_exists_mem {α : Type} {l : List α} :
    l ≠ [] ↔ ∃ x, x ∈ l := by
  cases l <;> simp

theorem filterMap_ne_nil_iff {α β : Type} {f : α → Option β} {l : List α} :
    l.filterMap f ≠ [] ↔ ∃ a ∈ l, (f a).isSome = true := by
  rw [ne_nil_iff_exists_mem]
  constructor
  · rintro ⟨b, hb⟩
    obtain ⟨a, ha, hfa⟩ := List.mem_filterMap.mp hb
    exact ⟨a, ha, by simp [hfa]⟩
  · rintro ⟨a, ha, hfa⟩
    obtain ⟨b, hb⟩ := Option.isSome_iff_exists.mp hfa
    exact ⟨b, List.mem_filterMap.mpr ⟨a, ha, hb⟩⟩

/-! ### Unfolding lemmas for the script model -/

theorem runScript_score (dig : Dig) (dom ms : String) :
    (runScript dig dom ms).score =
      b2n (runScript dig dom ms).mxPresent + b2n (runScript dig dom ms).aPresent +
        b2n (runScript dig dom ms).spfPresent + b2n (runScript dig dom ms).dkimFound +
        b2n (runScript dig dom ms).dmarcPresent := rfl

theorem runScript_verdict (dig : Dig) (dom ms : String) :
    (runScript dig dom ms).verdict =
      (if (runScript dig dom ms).score = 5 then "pass"
       else if 3 ≤ (runScript dig dom ms).score then "warn" else "fail") := rfl

theorem runScript_mxMatches (dig : Dig) (dom ms : String) :
    (runScript dig dom ms).mxMatches =
      (dig.digMx dom).any (fun l => bregContains ms l) := rfl

/-- Threshold behaviour of the script summary over the five flags. -/
theorem script_thresholds_core :
    ∀ a b c d e : Bool,
      ((if b2n a + b2n b + b2n c + b2n d + b2n e = 5 then "pass"
        else if 3 ≤ b2n a + b2n b + b2n c + b2n d + b2n e then "warn"
        else "fail") = "pass" ↔ b2n a + b2n b + b2n c + b2n d + b2n e = 5) ∧
      ((if b2n a + b2n b + b2n c + b2n d + b2n e = 5 then "pass"
        else if 3 ≤ b2n a + b2n b + b2n c + b2n d + b2n e then "warn"
        else "fail") = "warn" ↔
          3 ≤ b2n a + b2n b + b2n c + b2n d + b2n e ∧
            b2n a + b2n b + b2n c + b2n d + b2n e < 5) ∧
      ((if b2n a + b2n b + b2n c + b2n d + b2n e = 5 then "pass"
        else if 3 ≤ b2n a + b2n b + b2n c + b2n d + b2n e then "warn"
        else "fail") = "fail" ↔ b2n a + b2n b + b2n c + b2n d + b2n e < 3) := by
  decide

/-! ### Claim theorems -/

/-- Claim C1, counterexample: a resolver holding one DMARC record and
nothing else (in particular no A record at any name) makes the service tool
compute score 25, while the formula of the claim, 25 times the count of the
true flags among MX present, A present, SPF present and DKIM present, gives
0 there: all four of those flags are false. -/
theorem score_counts_dmarc_not_a_cex :
    dnsScore noARes "example.com" = 25 ∧
    mxPresent (dnsStatus noARes "example.com") = false ∧
    spfPresent (dnsStatus noARes "example.com") = false ∧
    dkimPresent (dnsStatus noARes "example.com") = false ∧
    noARes.resolveA = (fun _ => none) ∧
    fourFactorScore false false false false = 0 :=
  ⟨by decide, by decide, by decide, by decide, rfl, by decide⟩

/-- Claim C1 as amended: in the service-tool variant the computed score
equals 25 times the number of true flags among MX present, SPF present,
DKIM present and DMARC present; the tool performs no A-record check. -/
theorem score_is_25_times_present_factors (res : Resolver) (domain : String) :
    dnsScore res domain =
      25 * (b2n (mxPresent (dnsStatus res domain)) +
        b2n (spfPresent (dnsStatus res domain)) +
        b2n (dkimPresent (dnsStatus res domain)) +
        b2n (dmarcPresent (dnsStatus res domain))) := by
  rw [dnsScore_eq]
  exact scoreOfResults_formula _

/-- Claim C2: in the service tool the verdict is pass exactly at score 100,
warn exactly when the score is at least 75 and below 100, and fail exactly
below 75; in the script the verdict is pass exactly at score 5, warn
exactly when the score is at least 3 and below 5, and fail exactly
below 3. -/
theorem verdict_thresholds :
    (∀ (res : Resolver) (domain : String),
      ((dnsStatus res domain).verdict = "pass" ↔ dnsScore res domain = 100) ∧
      ((dnsStatus res domain).verdict = "warn" ↔
        75 ≤ dnsScore res domain ∧ dnsScore res domain < 100) ∧
      ((dnsStatus res domain).verdict = "fail" ↔ dnsScore res domain < 75)) ∧
    (∀ (dig : Dig) (dom ms : String),
      ((runScript dig dom ms).verdict = "pass" ↔ (runScript dig dom ms).score = 5) ∧
      ((runScript dig dom ms).verdict = "warn" ↔
        3 ≤ (runScript dig dom ms).score ∧ (runScript dig dom ms).score < 5) ∧
      ((runScript dig dom ms).verdict = "fail" ↔ (runScript dig dom ms).score < 3)) := by
  constructor
  · intro res domain
    have hs : dnsScore res domain = 0 ∨ dnsScore res domain = 25 ∨
        dnsScore res domain = 50 ∨ dnsScore res domain = 75 ∨
        dnsScore res domain = 100 := by
      simpa using dnsScore_mem res domain
    rw [dnsStatus_verdict]
    rcases hs with h | h | h | h | h <;> rw [h] <;> decide
  · intro dig dom ms
    rw [runScript_verdict, runScript_score]
    exact script_thresholds_core _ _ _ _ _

/-- Claim C3: when every MX resolution and every TXT resolution fails or
returns no records, the engine still returns a report, every present field
of that report is absent, the computed score is 0 and the verdict is
fail. -/
theorem no_records_zero_score_fail (res : Resolver) (domain : String)
    (hmx : ∀ n, res.resolveMx n = none ∨ res.resolveMx n = some [])
    (htxt : ∀ n, res.resolveTxt n = none ∨ res.resolveTxt n = some []) :
    dnsStatus res domain = ⟨domain, [], none, [], none, "fail"⟩ ∧
    dnsScore res domain = 0 := by
  have e1 : (dnsStatus res domain).mx = [] := by
    rw [dnsStatus_mx]
    rcases hmx domain with h | h <;> simp [h]
  have e2 : (dnsStatus res domain).spf = none := by
    rw [dnsStatus_spf]
    exact findJoin_absent _ (htxt domain)
  have e3 : (dnsStatus res domain).dkim = [] := by
    rw [dnsStatus_dkim]
    have hdkim : ∀ selector, dkimLookup res domain selector = none := by
      intro selector
      rw [dkimLookup, findJoin_absent _ (htxt _)]
      rfl
    simp [dkimSelectors, hdkim]
  have e4 : (dnsStatus res domain).dmarc = none := by
    rw [dnsStatus_dmarc]
    exact findJoin_absent _ (htxt _)
  have hscore : dnsScore res domain = 0 := by
    rw [dnsScore_eq]
    unfold scoreOfResults
    rw [e1, e2, e3, e4]
    simp [truthy]
  have hverd : (dnsStatus res domain).verdict = "fail" := by
    rw [dnsStatus_verdict, hscore]
    decide
  refine ⟨?_, hscore⟩
  have heta : dnsStatus res domain =
      ⟨(dnsStatus res domain).domain, (dnsStatus res domain).mx,
        (dnsStatus res domain).spf, (dnsStatus res domain).dkim,
        (dnsStatus res domain).dmarc, (dnsStatus res domain).verdict⟩ := rfl
  rw [heta, dnsStatus_domain, e1, e2, e3, e4, hverd]

/-- Witness for claim C3 at the resolver on which every lookup throws. -/
theorem no_records_zero_score_fail_witness :
    dnsStatus emptyRes "example.com" =
      ⟨"example.com", [], none, [], none, "fail"⟩ ∧
    dnsScore emptyRes "example.com" = 0 :=
  no_records_zero_score_fail emptyRes "example.com"
    (fun _ => Or.inl rfl) (fun _ => Or.inl rfl)

/-- Claim C7: the engine is a pure function of the resolver answers: two
resolvers answering every question identically yield identical reports and
identical scores, and the score used for the verdict is exactly the rubric
read off the assembled observations. -/
theorem engine_deterministic (r1 r2 : Resolver) (domain : String)
    (hmx : ∀ n, r1.resolveMx n = r2.resolveMx n)
    (htxt : ∀ n, r1.resolveTxt n = r2.resolveTxt n) :
    dnsStatus r1 domain = dnsStatus r2 domain ∧
    dnsScore r1 domain = dnsScore r2 domain ∧
    dnsScore r1 domain = scoreOfResults (dnsStatus r1 domain) := by
  have h : dnsStatusT r1 domain = dnsStatusT r2 domain := by
    simp only [dnsStatusT, dkimLookup, hmx, htxt]
  exact ⟨by rw [dnsStatus, dnsStatus, h], by rw [dnsScore, dnsScore, h],
    dnsScore_eq r1 domain⟩

/-- Witness for claim C7 at a concrete resolver pair. -/
theorem engine_deterministic_witness :
    dnsStatus emptyRes "example.com" = dnsStatus emptyRes "example.com" ∧
    dnsScore emptyRes "example.com" = dnsScore emptyRes "example.com" ∧
    dnsScore emptyRes "example.com" =
      scoreOfResults (dnsStatus emptyRes "example.com") :=
  engine_deterministic emptyRes emptyRes "example.com"
    (fun _ => rfl) (fun _ => rfl)

/-- Claim C4, counterexample: on the empty domain string the engine does
not reject the input; its very first action is an MX resolver question for
the empty string, and it ends by returning an ordinary report. -/
theorem empty_domain_not_rejected_cex :
    dnsQueries emptyRes "" ≠ [] ∧
    (dnsQueries emptyRes "").head? = some (Query.mx "") ∧
    (dnsStatus emptyRes "").verdict = "fail" :=
  ⟨by decide, by decide, by decide⟩

/-- Claim C4 as amended: the engine performs no validation of the domain
string; for the empty domain it issues its full fixed sequence of seven
resolver questions, beginning with an MX question for the empty string, and
returns a normal report for the empty domain. -/
theorem empty_domain_queries_issued (res : Resolver) :
    dnsQueries res "" =
      [Query.mx "", Query.txt "", Query.txt "s1._domainkey.",
        Query.txt "default._domainkey.", Query.txt "selector1._domainkey.",
        Query.txt "selector2._domainkey.", Query.txt "_dmarc."] ∧
    (dnsStatus res "").domain = "" :=
  ⟨rfl, rfl⟩

/-- Claim C5: DKIM selector enumeration is exhaustive over the fixed
candidate list of the service tool: the reported dkim entries carry exactly
those candidate selectors whose TXT lookup succeeded with a record whose
joined value contains the substring v=DKIM1, and the aggregate DKIM check
is present exactly when at least one selector matched. -/
theorem dkim_enumeration_exhaustive (res : Resolver) (domain : String) :
    (∀ s : String,
      (∃ e ∈ (dnsStatus res domain).dkim, e.selector = s) ↔
        (s ∈ dkimSelectors ∧
          ∃ l, res.resolveTxt (s ++ "._domainkey." ++ domain) = some l ∧
            ∃ r ∈ l, strContains (joinChunks r) "v=DKIM1" = true)) ∧
    ((dnsStatus res domain).dkim ≠ [] ↔
      ∃ s ∈ dkimSelectors,
        ∃ l, res.resolveTxt (s ++ "._domainkey." ++ domain) = some l ∧
          ∃ r ∈ l, strContains (joinChunks r) "v=DKIM1" = true) := by
  constructor
  · intro s
    rw [dnsStatus_dkim]
    constructor
    · rintro ⟨e, he, hsel⟩
      obtain ⟨sel, hselmem, hlk⟩ := List.mem_filterMap.mp he
      have hes := dkimLookup_selector hlk
      have hs : sel = s := by rw [← hes, hsel]
      subst hs
      refine ⟨hselmem, ?_⟩
      have hiss : (dkimLookup res domain sel).isSome = true := by simp [hlk]
      exact (dkimLookup_isSome_iff res domain sel).mp hiss
    · rintro ⟨hmem, hex⟩
      have hiss : (dkimLookup res domain s).isSome = true :=
        (dkimLookup_isSome_iff res domain s).mpr hex
      obtain ⟨e, he⟩ := Option.isSome_iff_exists.mp hiss
      exact ⟨e, List.mem_filterMap.mpr ⟨s, hmem, he⟩, dkimLookup_selector he⟩
  · rw [dnsStatus_dkim, filterMap_ne_nil_iff]
    constructor
    · rintro ⟨sel, hmem, hiss⟩
      exact ⟨sel, hmem, (dkimLookup_isSome_iff res domain sel).mp hiss⟩
    · rintro ⟨sel, hmem, hex⟩
      exact ⟨sel, hmem, (dkimLookup_isSome_iff res domain sel).mpr hex⟩

/-- Claim C6: the SPF field holds the first TXT entry whose concatenated
value starts with the literal v=spf1, SPF is present exactly when such an
entry exists, and presence is independent of the mechanism heuristic: the
value v=spf1 mx -all is flagged plausible, the value v=spf1 foo is not,
while both make the report SPF-present. -/
theorem spf_first_prefix_selected (res : Resolver) (domain : String) :
    (∀ v : String,
      (dnsStatus res domain).spf = some v ↔
        ∃ l l1 r l2, res.resolveTxt domain = some l ∧ l = l1 ++ r :: l2 ∧
          strStartsWith (joinChunks r) "v=spf1" = true ∧
          (∀ rp ∈ l1, strStartsWith (joinChunks rp) "v=spf1" = false) ∧
          v = joinChunks r) ∧
    ((dnsStatus res domain).spf.isSome = true ↔
      ∃ l, res.resolveTxt domain = some l ∧
        ∃ r ∈ l, strStartsWith (joinChunks r) "v=spf1" = true) ∧
    spfPlausible "v=spf1 mx -all" = true ∧
    spfPlausible "v=spf1 foo" = false ∧
    spfPresent (dnsStatus spfMxRes "example.com") = true ∧
    spfPresent (dnsStatus spfFooRes "example.com") = true := by
  refine ⟨?_, ?_, by decide, by decide, by decide, by decide⟩
  · intro v
    rw [dnsStatus_spf]
    exact findJoin_eq_some_iff _ _ v
  · rw [dnsStatus_spf]
    exact findJoin_isSome_iff _ _

/-- Claim C8, counterexample: the exchange in the dig output line matches
the expected mail hostname case-insensitively after trailing-dot
normalization, as the claim requires, yet the script flag is false, because
the source compares with a case-sensitive grep. -/
theorem mx_match_case_sensitive_cex :
    (runScript cexDig "example.com" "mail.example.com").mxMatches = false ∧
    specMxMatch ["MAIL.EXAMPLE.COM."] "mail.example.com" = true :=
  ⟨by decide, by decide⟩

/-- Claim C8 as amended: the script sets its MX match flag exactly when
some line of the dig MX output contains a case-sensitive match of
mailHostname as a grep pattern, in which a dot matches any single
character; no case-insensitive comparison, trailing-dot normalization or
equality test with the parsed exchange takes place. -/
theorem mx_match_grep_semantics (dig : Dig) (domain mailServer : String) :
    (runScript dig domain mailServer).mxMatches = true ↔
      ∃ line ∈ dig.digMx domain,
        ∃ pre mid post : List Char,
          line.toList = pre ++ mid ++ post ∧
          List.Forall₂ (fun p c => p = '.' ∨ p = c) mailServer.toList mid := by
  have hconv : ∀ (pat mid : List Char),
      List.Forall₂ (fun p c => (p == '.' || p == c) = true) pat mid ↔
        List.Forall₂ (fun p c => p = '.' ∨ p = c) pat mid := by
    intro pat mid
    constructor <;> intro h <;>
      exact h.imp (by intro a b hab; simpa using hab)
  rw [runScript_mxMatches, List.any_eq_true]
  constructor
  · rintro ⟨line, hline, hmatch⟩
    simp only [bregContains] at hmatch
    obtain ⟨pre, mid, post, heq, hf⟩ := (containsBy_iff _ _ _).mp hmatch
    exact ⟨line, hline, pre, mid, post, heq, (hconv _ _).mp hf⟩
  · rintro ⟨line, hline, pre, mid, post, heq, hf⟩
    refine ⟨line, hline, ?_⟩
    simp only [bregContains]
    exact (containsBy_iff _ _ _).mpr ⟨pre, mid, post, heq, (hconv _ _).mpr hf⟩

/-- Claim C10: the dkim entries of every report carry pairwise distinct
selectors forming, in order, a sublist of the candidate list, each entry
txt contains the substring v=DKIM1, and the list has length at most 4. -/
theorem dkim_list_invariants (res : Resolver) (domain : String) :
    ((dnsStatus res domain).dkim.map DkimEntry.selector).Sublist dkimSelectors ∧
    ((dnsStatus res domain).dkim.map DkimEntry.selector).Nodup ∧
    (∀ e ∈ (dnsStatus res domain).dkim, strContains e.txt "v=DKIM1" = true) ∧
    (dnsStatus res domain).dkim.length ≤ 4 := by
  have hsub :
      ((dnsStatus res domain).dkim.map DkimEntry.selector).Sublist dkimSelectors := by
    rw [dnsStatus_dkim]
    exact filterMap_map_sublist _ _ (fun a b h => dkimLookup_selector h) dkimSelectors
  have hnodup : ((dnsStatus res domain).dkim.map DkimEntry.selector).Nodup :=
    (by decide : dkimSelectors.Nodup).sublist hsub
  have hlen : (dnsStatus res domain).dkim.length ≤ 4 := by
    have h := hsub.length_le
    rw [List.length_map] at h
    simpa [dkimSelectors] using h
  have htxt : ∀ e ∈ (dnsStatus res domain).dkim,
      strContains e.txt "v=DKIM1" = true := by
    intro e he
    rw [dnsStatus_dkim] at he
    obtain ⟨sel, hmem, hlk⟩ := List.mem_filterMap.mp he
    exact dkimLookup_txt hlk
  exact ⟨hsub, hnodup, htxt, hlen⟩

/-- Claim C9: for every input and every resolver behaviour the verdict of
the returned report is one of pass, warn and fail, so the initial unknown
placeholder is always overwritten, and the internally computed score is one
of 0, 25, 50, 75 and 100. -/
theorem verdict_and_score_ranges (res : Resolver) (domain : String) :
    (dnsStatus res domain).verdict ∈ (["pass", "warn", "fail"] : List String) ∧
    dnsScore res domain ∈ ([0, 25, 50, 75, 100] : List Nat) := by
  refine ⟨?_, dnsScore_mem res domain⟩
  rw [dnsStatus_verdict]
  by_cases h1 : 100 ≤ dnsScore res domain
  · simp [h1]
  · by_cases h2 : 75 ≤ dnsScore res domain <;> simp [h1, h2]

end MailHero
